import Mathlib

/-!
Shallow embedding of the `sstable` Go package (childoftheuniverse/sstable):
a sorted-string-table writer (`writer.go`) and reader (`reader.go`) over
record streams.  Keys and values are Go strings, compared byte-wise
(`strings.Compare`); Lean's lexicographic `String` order coincides with the
byte order on valid UTF-8, which is what Go strings hold here.

The record codec (`recordio` + `proto.Marshal`) and the byte streams
(`filesystem` objects) are external collaborators of the package; they are
modelled at their interface boundary: a record's serialized form is opaque,
only its length matters for offset bookkeeping, and stream faults are
injected through an environment value.
-/

namespace SSTable

/-- Byte-wise lexicographic "strictly less" on character lists, the order
`strings.Compare` induces on Go strings (UTF-8 byte order coincides with
code-point order).  Defined structurally so that it evaluates by kernel
reduction. -/
def ltList : List Char → List Char → Bool
  | [], [] => false
  | [], _ :: _ => true
  | _ :: _, [] => false
  | a :: as, b :: bs => if a < b then true else if b < a then false else ltList as bs

/-- `strings.Compare(a, b) < 0`. -/
def ltStr (a b : String) : Bool := ltList a.data b.data

/-- `strings.Compare(a, b) <= 0`. -/
def leStr (a b : String) : Bool := !(ltStr b a)

/-- Error values of the package (`Err_KeyOrderViolation`,
`Err_UnsupportedIndexType`, `Err_NotSeeker`) plus the external stream error
values that are passed through unmodified: `eof` stands for `io.EOF` and
`ioError n` for an arbitrary I/O error produced by a stream or codec. -/
inductive Err where
  | keyOrderViolation
  | unsupportedIndexType
  | notSeeker
  | eof
  | ioError (n : Nat)
deriving DecidableEq

/-- A data record, `KeyValue` in the source (key and value strings). -/
structure KeyValue where
  key : String
  value : String
deriving DecidableEq

/-- An index record, `IndexRecord` in the source: a key (or key prefix) and
the byte offset in the data stream of the record it points at. -/
structure IndexRecord where
  key : String
  offset : Int
deriving DecidableEq

/-- Models the external record codec (`proto.Marshal` + recordio framing):
the serialized length of a data record.  The exact framing is external to
the package; the model fixes a concrete positive length (payload bytes plus
two framing bytes) so offsets are computable. -/
def encLen (kv : KeyValue) : Int :=
  (kv.key.length : Int) + (kv.value.length : Int) + 2

/-- Serialized length of an index record under the modelled codec
(`proto.Size(&ir)` in the source). -/
def encIdxLen (ir : IndexRecord) : Int :=
  (ir.key.length : Int) + 2

def IndexType_NONE : Nat := 0
def IndexType_EVERY_N : Nat := 1
def IndexType_PREFIXLEN : Nat := 2

/-- Writer state, the `Writer` struct of the source.  The two output
streams are represented by their capabilities: `hasIdx` is `out_idx != nil`
and `hasSeek` is `out_seek != nil` (the data stream supports `Tell`). -/
structure Writer where
  hasIdx : Bool
  index_type : Nat
  index_n : Nat
  last_key : String
  index_offset : Int
  prev_index_ctr : Nat
  /-- `prev_index_prefix` in the source. -/
  prev_index_pfx : String
  hasSeek : Bool
deriving DecidableEq

/-- Behaviour of the external streams during one `WriteString` call:
whether the data write fails, whether the index write fails, and what
`out_seek.Tell` returns (`none` = `Tell` errors). -/
structure WEnv where
  dataWriteErr : Option Nat
  idxWriteErr : Option Nat
  tell : Option Int
deriving DecidableEq

/-- Result of one `WriteString` call: the new writer state, the records
that reached the data stream, the records that reached the index stream,
and the returned error. -/
structure WriteResult where
  w : Writer
  dataAppended : List KeyValue
  idxAppended : List IndexRecord
  err : Option Err
deriving DecidableEq

/-- Final section of `Writer.WriteString`: update the write-offset cursor.
If `out_seek` is non-nil, `Tell` is consulted: on success the cursor is set
to the reported position, on error it is advanced by the length of the
record just written.  If `out_seek` is nil this block is skipped entirely
(the cursor is left unchanged). -/
def writeFinish (env : WEnv) (w : Writer) (rdata : KeyValue)
    (idx : List IndexRecord) : WriteResult :=
  let length := encLen rdata
  let w2 :=
    if w.hasSeek then
      match env.tell with
      | some o => { w with index_offset := o }
      | none => { w with index_offset := w.index_offset + length }
    else w
  ⟨w2, [rdata], idx, none⟩

/-- Index-entry section of `Writer.WriteString` (the `switch` on
`index_type`), entered after the data record has been written and
`last_key` updated.  `rdata` is the record just written. -/
def writeIndexStep (env : WEnv) (w : Writer) (rdata : KeyValue) : WriteResult :=
  if w.hasIdx = true ∧ w.index_type ≠ IndexType_NONE then
    if w.index_type = IndexType_PREFIXLEN then
      let pfx :=
        if rdata.key.length ≤ w.index_n then rdata.key
        else rdata.key.take w.index_n
      if pfx ≠ w.prev_index_pfx then
        match env.idxWriteErr with
        | some n => ⟨w, [rdata], [], some (.ioError n)⟩
        | none =>
            writeFinish env { w with prev_index_pfx := pfx } rdata
              [⟨pfx, w.index_offset⟩]
      else writeFinish env w rdata []
    else if w.index_type = IndexType_EVERY_N then
      let w1 := { w with prev_index_ctr := (w.prev_index_ctr + 1) % w.index_n }
      if w1.prev_index_ctr = 0 then
        match env.idxWriteErr with
        | some n => ⟨w1, [rdata], [], some (.ioError n)⟩
        | none =>
            writeFinish env { w1 with prev_index_pfx := rdata.key } rdata
              [⟨rdata.key, w1.index_offset⟩]
      else writeFinish env w1 rdata []
    else ⟨w, [rdata], [], some .unsupportedIndexType⟩
  else writeFinish env w rdata []

/-- `Writer.WriteString`: reject a key strictly below `last_key`
(`strings.Compare(w.last_key, key) > 0`), serialize (the modelled codec is
total on records), write the record to the data stream, set `last_key`,
then run the index step and the cursor update. -/
def WriteString (env : WEnv) (w : Writer) (key value : String) : WriteResult :=
  if ltStr key w.last_key then ⟨w, [], [], some .keyOrderViolation⟩
  else
    match env.dataWriteErr with
    | some n => ⟨w, [], [], some (.ioError n)⟩
    | none => writeIndexStep env { w with last_key := key } ⟨key, value⟩

/-- `NewWriter`: plain writer, no index stream.  `tellInit` is what the
initial `Tell` probe returns when the stream is a Seeker (`none` = error,
zeroed out as in the source). -/
def NewWriter (hasSeek : Bool) (tellInit : Option Int) : Writer :=
  { hasIdx := false, index_type := IndexType_NONE, index_n := 0,
    last_key := "", index_offset := if hasSeek then tellInit.getD 0 else 0,
    prev_index_ctr := 0, prev_index_pfx := "", hasSeek := hasSeek }

/-- `NewIndexedWriter`: writer with an index stream and a density policy. -/
def NewIndexedWriter (hasSeek : Bool) (tellInit : Option Int)
    (index_type index_n : Nat) : Writer :=
  { hasIdx := true, index_type := index_type, index_n := index_n,
    last_key := "", index_offset := if hasSeek then tellInit.getD 0 else 0,
    prev_index_ctr := 0, prev_index_pfx := "", hasSeek := hasSeek }

/-- Writes a list of (key, value) pairs one after another with
`WriteString`, stopping at the first error, with fault-free streams and no
seek support — the loop bodies of `WriteStringMap` and `WriteProtoMap`. -/
def writeList (w : Writer) : List (String × String) → Writer × Option Err
  | [] => (w, none)
  | (k, v) :: rest =>
    let res := WriteString ⟨none, none, none⟩ w k v
    match res.err with
    | some e => (res.w, some e)
    | none => writeList res.w rest

/-- Go map subscript `data[key]` over the association-list model of a map
(first binding wins; Go maps have unique keys). -/
def mapGet (data : List (String × String)) (k : String) : String :=
  match data.find? (fun e => e.1 == k) with
  | some e => e.2
  | none => ""

/-- `Writer.WriteStringMap`: collect the map's keys in iteration order
(the list order models Go's arbitrary map iteration order), sort them
ascending (`sort.Strings`), then write each key with its value. -/
def WriteStringMap (w : Writer) (data : List (String × String)) :
    Writer × Option Err :=
  let keys := List.insertionSort (fun a b : String => leStr a b = true)
    (data.map Prod.fst)
  writeList w (keys.map (fun k => (k, mapGet data k)))

/-- `Writer.WriteProtoMap`: iterate the map directly in iteration order
(`for key, value = range data`) and write each entry via `WriteProto`,
which marshals the value (modelled by its byte string) and calls
`WriteString`.  No sorting happens in the source. -/
def WriteProtoMap (w : Writer) (data : List (String × String)) :
    Writer × Option Err :=
  writeList w data

/-- A writer together with its two output streams, for end-to-end runs:
the data stream is a seekable in-memory file starting empty, so `Tell`
reports the total bytes written so far. -/
structure WSys where
  w : Writer
  dataRecs : List KeyValue
  dataBytes : Int
  idxRecs : List IndexRecord
deriving DecidableEq

/-- One `WriteString` call against the in-memory streams of a `WSys`:
`Tell`, consulted only after a successful data write, reports the position
after that write. -/
def sysWrite (s : WSys) (key value : String) : WSys × Option Err :=
  let newBytes := s.dataBytes + encLen ⟨key, value⟩
  let res := WriteString ⟨none, none, some newBytes⟩ s.w key value
  (⟨res.w, s.dataRecs ++ res.dataAppended,
    if res.dataAppended = [] then s.dataBytes else newBytes,
    s.idxRecs ++ res.idxAppended⟩, res.err)

/-- Byte offset at which record number `n` of a data stream starts. -/
def startOffset (recs : List KeyValue) (n : Nat) : Int :=
  ((recs.take n).map encLen).sum

/-- Reader state, the `Reader` struct of the source.  The two input
streams are carried as their record content plus capabilities: `dataRecs`
is the content of `orig_in`, `pos` the true byte position of the data
stream, `offset` the reader's `offset` field, `hasIdx` is
`in_idx != nil`, `idxRecs` the content of the index stream and
`idx_offset` the reader's `idx_offset` field. -/
structure RState where
  dataRecs : List KeyValue
  dataSeekable : Bool
  pos : Int
  offset : Int
  cache_entry_index : Bool
  entry_index_cache : List (String × Int)
  hasIdx : Bool
  idxRecs : List IndexRecord
  idxSeekable : Bool
  idx_offset : Int
deriving DecidableEq

/-- `NewReader`: linear-lookup reader, no index stream. -/
def NewReader (recs : List KeyValue) (seekable : Bool) : RState :=
  { dataRecs := recs, dataSeekable := seekable, pos := 0, offset := 0,
    cache_entry_index := false, entry_index_cache := [],
    hasIdx := false, idxRecs := [], idxSeekable := false, idx_offset := 0 }

/-- Total byte length of a data stream under the modelled codec. -/
def totalLen (recs : List KeyValue) : Int :=
  (recs.map encLen).sum

/-- Records of a data stream at or after byte position `p` (the suffix a
record reader positioned at `p` will deliver; positions used by the reader
are always record boundaries). -/
def recsFrom : List KeyValue → Int → List KeyValue
  | [], _ => []
  | kv :: rest, p => if p ≤ 0 then kv :: rest else recsFrom rest (p - encLen kv)

/-- The cached-index loop of `Reader.indexLookup`: walk the cache entries
in iteration order carrying `(closest_k, closest_v)`, short-circuiting on
an exact key match. -/
def cacheScan (key : String) : List (String × Int) → String → Int → Int
  | [], _, cv => cv
  | (k, v) :: rest, ck, cv =>
    if ltStr k key then
      if ltStr ck k then cacheScan key rest k v
      else cacheScan key rest ck cv
    else if k = key then v
    else cacheScan key rest ck cv

/-- The on-disk loop of `Reader.indexLookup`: read index records in stream
order carrying `(closest_k, closest_v)` and the advancing `idx_offset`
(`ofs`); returns the looked-up offset and the final `idx_offset`.
Short-circuits on an exact key match, returns `closest_v` at end of
stream. -/
def diskScan (key : String) : List IndexRecord → String → Int → Int → Int × Int
  | [], _, cv, ofs => (cv, ofs)
  | ir :: rest, ck, cv, ofs =>
    let ofs2 := ofs + encIdxLen ir
    if ltStr ir.key key then
      if ltStr ck ir.key then diskScan key rest ir.key ir.offset ofs2
      else diskScan key rest ck cv ofs2
    else if ir.key = key then (ir.offset, ofs2)
    else diskScan key rest ck cv ofs2

/-- `Reader.indexLookup`: cached branch, on-disk branch (with the rewind
guard: a non-seekable index stream whose cursor is past the start fails
with `Err_NotSeeker`; a seekable one is rewound — the source ignores the
seek's error — and scanned from the beginning), or, with no index stream
at all, return the reader's `idx_offset` field. -/
def indexLookup (r : RState) (key : String) : RState × (Int × Option Err) :=
  if r.cache_entry_index then
    (r, (cacheScan key r.entry_index_cache "" 0, none))
  else if r.hasIdx then
    if 0 < r.idx_offset then
      if r.idxSeekable then
        let res := diskScan key r.idxRecs "" 0 0
        ({ r with idx_offset := res.2 }, (res.1, none))
      else (r, (0, some .notSeeker))
    else
      let res := diskScan key r.idxRecs "" 0 r.idx_offset
      ({ r with idx_offset := res.2 }, (res.1, none))
  else (r, (r.idx_offset, none))

/-- `Reader.SeekTo`: native seek when available (the source updates the
`offset` field only on a seek *error*, so on success it is left as is);
otherwise forward seeking is emulated by reading and discarding bytes —
going backwards fails with `Err_NotSeeker`, running out of data surfaces
the stream's end-of-file error. -/
def SeekTo (r : RState) (off : Int) : RState × Option Err :=
  if r.dataSeekable then ({ r with pos := off }, none)
  else if off < r.offset then (r, some .notSeeker)
  else
    if r.pos + (off - r.offset) ≤ totalLen r.dataRecs then
      ({ r with pos := r.pos + (off - r.offset), offset := off }, none)
    else
      ({ r with
         pos := totalLen r.dataRecs,
         offset := r.offset + (totalLen r.dataRecs - r.pos) }, some .eof)

/-- The scan loop of `Reader.ReadString` over the records delivered from
the current position: end of stream yields `("", nil)` (not found, no
error); an exact key match yields the record's value; a key strictly
greater than the target stops the scan with `("", nil)`. -/
def readScan : List KeyValue → String → String × Option Err
  | [], _ => ("", none)
  | kv :: rest, key =>
    if kv.key = key then (kv.value, none)
    else if ltStr key kv.key then ("", none)
    else readScan rest key

/-- `Reader.ReadString`: index lookup, seek to the returned offset, then
scan forward. -/
def ReadString (r : RState) (key : String) : String × Option Err :=
  match indexLookup r key with
  | (_, (_, some e)) => ("", some e)
  | (r1, (off, none)) =>
    match SeekTo r1 off with
    | (_, some e) => ("", some e)
    | (r2, none) => readScan (recsFrom r2.dataRecs r2.pos) key

/-- `Reader.ReadProto`: `ReadString`, then `pb.Reset()` and
`proto.Unmarshal(val, pb)`.  A protocol-buffer message is modelled by its
byte content: `Reset` + `Unmarshal v` leaves the message holding `v`, and
unmarshalling the empty string yields the empty message.  On a lookup
error the message is returned untouched. -/
def ReadProto (r : RState) (key : String) (pb : String) : String × Option Err :=
  match ReadString r key with
  | (_, some e) => (pb, some e)
  | (val, none) => (val, none)

/-- Reader over the streams produced by an end-to-end writer run:
non-cached indexed reader, both streams seekable and rewound. -/
def tableReader (s : WSys) : RState :=
  { dataRecs := s.dataRecs, dataSeekable := true, pos := 0, offset := 0,
    cache_entry_index := false, entry_index_cache := [],
    hasIdx := true, idxRecs := s.idxRecs, idxSeekable := true,
    idx_offset := 0 }

/-- Keys of a record list are in ascending (non-strict) order — the
invariant the writer guarantees for the data stream. -/
def sortedByKey : List KeyValue → Bool
  | [] => true
  | [_] => true
  | a :: b :: rest => if leStr a.key b.key then sortedByKey (b :: rest) else false

/-- Floor-search specification for an index lookup result `res` over
`entries`, following the amended claim: an entry whose key equals the
target may be returned directly; otherwise `res` is the offset of an entry
with the largest *nonempty* key strictly below the target, and `0` when no
such entry exists. -/
def floorResult (entries : List (String × Int)) (key : String) (res : Int) : Prop :=
  (∃ e ∈ entries, e.1 = key ∧ res = e.2) ∨
  ((∀ e ∈ entries, e.1 ≠ key) ∧
    ((∃ e ∈ entries, "" < e.1 ∧ e.1 < key ∧ res = e.2 ∧
        ∀ e2 ∈ entries, e2.1 < key → e2.1 ≤ e.1) ∨
     ((∀ e ∈ entries, ¬("" < e.1 ∧ e.1 < key)) ∧ res = 0)))

/-! Concrete tables, writers and readers used as counterexample and witness
inputs. -/

/-- The `EVERY_N(2)` scenario: indexed writer over empty seekable streams. -/
def sysW0 : WSys := ⟨NewIndexedWriter true (some 0) IndexType_EVERY_N 2, [], 0, []⟩

def sysW1 : WSys := (sysWrite sysW0 "aaa" "foo").1

def sysW2 : WSys := (sysWrite sysW1 "aab" "bar").1

def sysW3 : WSys := (sysWrite sysW2 "mmm" "baz").1

/-- Cached reader whose index cache holds a single entry with the empty key
and a nonzero offset (such an entry arises from an `EVERY_N` index whose
first record has the empty key on a data stream not starting at 0). -/
def rEmptyKeyCache : RState :=
  { (NewReader [] true) with
    cache_entry_index := true, entry_index_cache := [("", 5)],
    hasIdx := true, idxSeekable := true }

/-- Cached reader with an ordinary two-entry cache. -/
def rCacheSample : RState :=
  { (NewReader [] true) with
    cache_entry_index := true, entry_index_cache := [("a", 3), ("b", 7)],
    hasIdx := true, idxSeekable := true }

/-- Non-cached indexed reader, fresh on-disk index. -/
def rDiskSample : RState :=
  { (NewReader [] true) with
    hasIdx := true, idxRecs := [⟨"a", 3⟩, ⟨"b", 7⟩], idxSeekable := true }

/-- Index-less reader over a one-record stream after an emulated forward
seek to byte 7. -/
def rNoIdx7 : RState := (SeekTo (NewReader [⟨"aaa", "foo"⟩] false) 7).1

/-- Non-cached indexed reader whose index cursor sits past the start,
seekable index stream. -/
def rIdxMid : RState :=
  { (NewReader [] true) with
    hasIdx := true, idxRecs := [⟨"b", 9⟩], idxSeekable := true,
    idx_offset := 3 }

/-- Same as `rIdxMid` but the index stream cannot seek. -/
def rIdxMidNoSeek : RState := { rIdxMid with idxSeekable := false }

/-- A small sorted table. -/
def recsW : List KeyValue := [⟨"aaa", "foo"⟩, ⟨"aab", "bar"⟩, ⟨"mmm", "baz"⟩]

/-- A sorted table whose first record stores the empty value. -/
def recsE : List KeyValue := [⟨"aaa", ""⟩, ⟨"mmm", "baz"⟩]

/-! Bridge between the executable byte-wise comparison and Mathlib's
lexicographic `String` order. -/

theorem ltList_iff : ∀ (as bs : List Char), ltList as bs = true ↔ as < bs
  | [], [] => by
      simp only [ltList]
      exact iff_of_false (by simp) (List.Lex.not_nil_right _ _)
  | [], b :: bs => by
      simp only [ltList]
      exact iff_of_true (by simp) (List.nil_lt_cons b bs)
  | a :: as, [] => by
      simp only [ltList]
      exact iff_of_false (by simp) (List.Lex.not_nil_right _ _)
  | a :: as, b :: bs => by
      simp only [ltList]
      by_cases hab : a < b
      · simp only [if_pos hab]
        exact iff_of_true (by simp) (List.Lex.rel hab)
      · simp only [if_neg hab]
        by_cases hba : b < a
        · simp only [if_pos hba]
          constructor
          · intro h; exact absurd h (by simp)
          · intro h
            cases h with
            | cons h2 => exact absurd hba (lt_irrefl _)
            | rel h2 => exact absurd h2 hab
        · simp only [if_neg hba]
          have hab2 : a = b := le_antisymm (not_lt.mp hba) (not_lt.mp hab)
          subst hab2
          rw [ltList_iff as bs]
          constructor
          · intro h; exact List.Lex.cons h
          · intro h
            cases h with
            | cons h2 => exact h2
            | rel h2 => exact absurd h2 (lt_irrefl _)

theorem ltStr_iff (a b : String) : ltStr a b = true ↔ a < b := by
  rw [String.lt_iff_toList_lt]
  exact ltList_iff a.data b.data

theorem ltStr_eq_false (a b : String) : ltStr a b = false ↔ b ≤ a := by
  rw [← Bool.not_eq_true, ltStr_iff, not_lt]

theorem leStr_iff (a b : String) : leStr a b = true ↔ a ≤ b := by
  unfold leStr
  rw [Bool.not_eq_true', ltStr_eq_false]

theorem ltStr_irrefl (s : String) : ltStr s s = false := by
  cases h : ltStr s s
  · rfl
  · exact absurd ((ltStr_iff s s).mp h) (lt_irrefl s)

theorem not_lt_empty (s : String) : ¬ s < "" := by
  intro h
  rw [String.lt_iff_toList_lt, String.toList_empty] at h
  exact List.Lex.not_nil_right _ _ h

/-! Characterization of the index-lookup scan loops. -/

theorem cacheScan_exact (key : String) (l : List (String × Int)) :
    ∀ ck cv, (∃ e ∈ l, e.1 = key) →
      ∃ e ∈ l, e.1 = key ∧ cacheScan key l ck cv = e.2 := by
  induction l with
  | nil => intro ck cv h; simp at h
  | cons hd rest ih =>
    intro ck cv h
    obtain ⟨k, v⟩ := hd
    by_cases hk : k = key
    · subst hk
      refine ⟨(k, v), by simp, rfl, ?_⟩
      simp [cacheScan, ltStr_irrefl]
    · have hrest : ∃ e ∈ rest, e.1 = key := by
        obtain ⟨e, he, hekey⟩ := h
        rcases List.mem_cons.mp he with rfl | hmem
        · exact absurd hekey hk
        · exact ⟨e, hmem, hekey⟩
      cases hlt : ltStr k key with
      | true =>
        cases hck : ltStr ck k with
        | true =>
          obtain ⟨e, he, h1, h2⟩ := ih k v hrest
          exact ⟨e, List.mem_cons_of_mem _ he, h1,
            by simp [cacheScan, hlt, hck, h2]⟩
        | false =>
          obtain ⟨e, he, h1, h2⟩ := ih ck cv hrest
          exact ⟨e, List.mem_cons_of_mem _ he, h1,
            by simp [cacheScan, hlt, hck, h2]⟩
      | false =>
        obtain ⟨e, he, h1, h2⟩ := ih ck cv hrest
        exact ⟨e, List.mem_cons_of_mem _ he, h1,
          by simp [cacheScan, hlt, hk, h2]⟩

theorem cacheScan_floor (key : String) (l : List (String × Int)) :
    ∀ ck cv, (∀ e ∈ l, e.1 ≠ key) →
      (cacheScan key l ck cv = cv ∧ ∀ e ∈ l, e.1 < key → e.1 ≤ ck) ∨
      (∃ e ∈ l, cacheScan key l ck cv = e.2 ∧ ck < e.1 ∧ e.1 < key ∧
        ∀ e2 ∈ l, e2.1 < key → e2.1 ≤ e.1) := by
  induction l with
  | nil => intro ck cv h; left; exact ⟨rfl, by simp⟩
  | cons hd rest ih =>
    intro ck cv h
    obtain ⟨k, v⟩ := hd
    have hk : k ≠ key := by
      have := h (k, v) (by simp)
      simpa using this
    have hrest : ∀ e ∈ rest, e.1 ≠ key :=
      fun e he => h e (List.mem_cons_of_mem _ he)
    cases hlt : ltStr k key with
    | false =>
      have hge : key ≤ k := (ltStr_eq_false k key).mp hlt
      rcases ih ck cv hrest with ⟨heq, hbound⟩ | ⟨e, he, h1, h2, h3, h4⟩
      · left
        constructor
        · simp [cacheScan, hlt, hk, heq]
        · intro e he2 hlt2
          rcases List.mem_cons.mp he2 with rfl | hmem
          · exact absurd hlt2 (not_lt.mpr hge)
          · exact hbound e hmem hlt2
      · right
        refine ⟨e, List.mem_cons_of_mem _ he, ?_, h2, h3, ?_⟩
        · simp [cacheScan, hlt, hk, h1]
        · intro e2 he2 hlt2
          rcases List.mem_cons.mp he2 with rfl | hmem
          · exact absurd hlt2 (not_lt.mpr hge)
          · exact h4 e2 hmem hlt2
    | true =>
      have hklt : k < key := (ltStr_iff k key).mp hlt
      cases hck : ltStr ck k with
      | true =>
        have hcklt : ck < k := (ltStr_iff ck k).mp hck
        rcases ih k v hrest with ⟨heq, hbound⟩ | ⟨e, he, h1, h2, h3, h4⟩
        · right
          refine ⟨(k, v), by simp, ?_, hcklt, hklt, ?_⟩
          · simp [cacheScan, hlt, hck, heq]
          · intro e2 he2 hlt2
            rcases List.mem_cons.mp he2 with rfl | hmem
            · exact le_refl _
            · exact hbound e2 hmem hlt2
        · right
          refine ⟨e, List.mem_cons_of_mem _ he, ?_, lt_trans hcklt h2, h3, ?_⟩
          · simp [cacheScan, hlt, hck, h1]
          · intro e2 he2 hlt2
            rcases List.mem_cons.mp he2 with rfl | hmem
            · exact le_of_lt h2
            · exact h4 e2 hmem hlt2
      | false =>
        have hcge : k ≤ ck := (ltStr_eq_false ck k).mp hck
        rcases ih ck cv hrest with ⟨heq, hbound⟩ | ⟨e, he, h1, h2, h3, h4⟩
        · left
          constructor
          · simp [cacheScan, hlt, hck, heq]
          · intro e2 he2 hlt2
            rcases List.mem_cons.mp he2 with rfl | hmem
            · exact hcge
            · exact hbound e2 hmem hlt2
        · right
          refine ⟨e, List.mem_cons_of_mem _ he, ?_, h2, h3, ?_⟩
          · simp [cacheScan, hlt, hck, h1]
          · intro e2 he2 hlt2
            rcases List.mem_cons.mp he2 with rfl | hmem
            · exact le_trans hcge (le_of_lt h2)
            · exact h4 e2 hmem hlt2

theorem cacheScan_floorResult (entries : List (String × Int)) (key : String) :
    floorResult entries key (cacheScan key entries "" 0) := by
  by_cases hex : ∃ e ∈ entries, e.1 = key
  · obtain ⟨e, he, h1, h2⟩ := cacheScan_exact key entries "" 0 hex
    exact Or.inl ⟨e, he, h1, h2⟩
  · push_neg at hex
    rcases cacheScan_floor key entries "" 0 hex with ⟨heq, hbound⟩ | ⟨e, he, h1, h2, h3, h4⟩
    · right
      refine ⟨hex, Or.inr ⟨?_, heq⟩⟩
      rintro e he2 ⟨hpos, hlt2⟩
      exact absurd (lt_of_lt_of_le hpos (hbound e he2 hlt2)) (lt_irrefl "")
    · exact Or.inr ⟨hex, Or.inl ⟨e, he, h2, h3, h1, h4⟩⟩

theorem diskScan_fst (key : String) (l : List IndexRecord) :
    ∀ ck cv ofs, (diskScan key l ck cv ofs).1 =
      cacheScan key (l.map fun ir => (ir.key, ir.offset)) ck cv := by
  induction l with
  | nil => intro ck cv ofs; rfl
  | cons ir rest ih =>
    intro ck cv ofs
    cases hlt : ltStr ir.key key with
    | true =>
      cases hck : ltStr ck ir.key with
      | true => simp [diskScan, cacheScan, hlt, hck, ih]
      | false => simp [diskScan, cacheScan, hlt, hck, ih]
    | false =>
      by_cases heq : ir.key = key
      · simp [diskScan, cacheScan, hlt, heq, ltStr_irrefl]
      · simp [diskScan, cacheScan, hlt, heq, ih]

theorem SeekTo_keeps_index_fields (r : RState) (off : Int) :
    (SeekTo r off).1.cache_entry_index = r.cache_entry_index ∧
    (SeekTo r off).1.hasIdx = r.hasIdx ∧
    (SeekTo r off).1.idx_offset = r.idx_offset := by
  unfold SeekTo
  split
  · exact ⟨rfl, rfl, rfl⟩
  · split
    · exact ⟨rfl, rfl, rfl⟩
    · split
      · exact ⟨rfl, rfl, rfl⟩
      · exact ⟨rfl, rfl, rfl⟩

/-- C1 (counterexample): the cached index lookup does not return the offset
of the entry with the largest key strictly below the target when that entry
has the empty key: with the cache `[("", 5)]` and target `"a"`, the single
entry's key `""` is strictly below `"a"`, yet the lookup returns `0`, not
`5` — the `("", 0)` initialisation of the scan can never be displaced by an
empty-key entry. -/
theorem indexLookup_emptyKey_counterexample :
    (indexLookup rEmptyKeyCache "a").2.1 = 0 ∧
    rEmptyKeyCache.entry_index_cache = [("", 5)] ∧
    ("" : String) < "a" ∧ (5 : Int) ≠ 0 :=
  ⟨rfl, rfl, (ltStr_iff "" "a").mp rfl, by decide⟩

/-- C1 (amended): `indexLookup` implements floor search over the available
index entries — the in-memory cache when built, otherwise the on-disk index
stream from its beginning: an entry whose key equals the target is returned
directly (short-circuit); otherwise the result is the offset of an entry
with the largest *nonempty* key strictly less than the target; if no entry
has a nonempty key strictly less than the target (and none equals it), the
result is offset 0 — an entry with the empty key is never selected as the
floor candidate. -/
theorem indexLookup_floor (r : RState) (key : String) :
    (r.cache_entry_index = true →
      floorResult r.entry_index_cache key (indexLookup r key).2.1) ∧
    (r.cache_entry_index = false → r.hasIdx = true → r.idx_offset = 0 →
      floorResult (r.idxRecs.map fun ir => (ir.key, ir.offset)) key
        (indexLookup r key).2.1) := by
  constructor
  · intro hc
    simp only [indexLookup, hc, if_true]
    exact cacheScan_floorResult _ _
  · intro hc hidx hofs
    simp only [indexLookup, hc, hidx, hofs, Bool.false_eq_true, if_false,
      if_true, lt_self_iff_false]
    rw [diskScan_fst]
    exact cacheScan_floorResult _ _

/-- Witness for C1 at a concrete cached reader. -/
theorem indexLookup_floor_witness :
    rCacheSample.cache_entry_index = true ∧
    floorResult rCacheSample.entry_index_cache "b"
      ((indexLookup rCacheSample "b").2.1) :=
  ⟨rfl, (indexLookup_floor rCacheSample "b").1 rfl⟩

/-- C7 (counterexample): for a reader constructed without any index stream,
`indexLookup` does not return the reader's last-known data-stream offset:
after an emulated forward seek to byte 7 the reader's `offset` field is 7,
but the lookup returns the `idx_offset` field, which is 0. -/
theorem indexLookup_noIdx_counterexample :
    rNoIdx7.offset = 7 ∧
    indexLookup rNoIdx7 "x" = (rNoIdx7, (0, none)) ∧ ((0 : Int) ≠ 7) :=
  ⟨rfl, rfl, by decide⟩

/-- C7 (amended): for a reader constructed without any index stream, every
index lookup returns the reader's index-stream offset field, which such a
reader never moves away from 0 — so lookups scan from the start of the
table, not from wherever the reader currently sits. -/
theorem indexLookup_noIdx (recs : List KeyValue) (seekable : Bool)
    (off : Int) (key : String) :
    indexLookup (SeekTo (NewReader recs seekable) off).1 key =
      ((SeekTo (NewReader recs seekable) off).1, (0, none)) := by
  have h1 : (SeekTo (NewReader recs seekable) off).1.cache_entry_index = false :=
    (SeekTo_keeps_index_fields (NewReader recs seekable) off).1
  have h2 : (SeekTo (NewReader recs seekable) off).1.hasIdx = false :=
    (SeekTo_keeps_index_fields (NewReader recs seekable) off).2.1
  have h3 : (SeekTo (NewReader recs seekable) off).1.idx_offset = 0 :=
    (SeekTo_keeps_index_fields (NewReader recs seekable) off).2.2
  simp [indexLookup, h1, h2, h3]

/-- C8: a non-cached on-disk index lookup that begins with the index
stream's cursor past the start (`idx_offset > 0`) fails with the
not-seekable error before scanning any entries (the reader state is
untouched) when the index stream cannot seek; when it can, the lookup
behaves exactly as a lookup whose cursor was rewound to the start. -/
theorem indexLookup_rewind (r : RState) (key : String)
    (h1 : r.cache_entry_index = false) (h2 : r.hasIdx = true)
    (h3 : 0 < r.idx_offset) :
    (r.idxSeekable = false →
      indexLookup r key = (r, (0, some .notSeeker))) ∧
    (r.idxSeekable = true →
      indexLookup r key = indexLookup { r with idx_offset := 0 } key) := by
  constructor
  · intro hseek
    simp [indexLookup, h1, h2, h3, hseek]
  · intro hseek
    simp [indexLookup, h1, h2, h3, hseek]

/-- Witness for C8 at concrete readers with `idx_offset = 3`. -/
theorem indexLookup_rewind_witness :
    (0 : Int) < rIdxMid.idx_offset ∧
    indexLookup rIdxMidNoSeek "a" = (rIdxMidNoSeek, (0, some .notSeeker)) ∧
    indexLookup rIdxMid "a" = indexLookup { rIdxMid with idx_offset := 0 } "a" :=
  ⟨by decide,
   (indexLookup_rewind rIdxMidNoSeek "a" rfl rfl (by decide)).1 rfl,
   (indexLookup_rewind rIdxMid "a" rfl rfl (by decide)).2 rfl⟩

/-! The exact-lookup scan. -/

theorem totalLen_nonneg (recs : List KeyValue) : 0 ≤ totalLen recs := by
  unfold totalLen
  apply List.sum_nonneg
  intro x hx
  obtain ⟨kv, _, rfl⟩ := List.mem_map.mp hx
  unfold encLen
  omega

theorem recsFrom_zero (recs : List KeyValue) : recsFrom recs 0 = recs := by
  cases recs with
  | nil => rfl
  | cons kv rest => simp [recsFrom]

theorem sortedByKey_tail (kv : KeyValue) (rest : List KeyValue)
    (h : sortedByKey (kv :: rest) = true) : sortedByKey rest = true := by
  cases rest with
  | nil => rfl
  | cons b rest2 =>
    cases hle : leStr kv.key b.key with
    | true => simpa [sortedByKey, hle] using h
    | false => simp [sortedByKey, hle] at h

theorem sortedByKey_head_le (kv : KeyValue) (rest : List KeyValue)
    (h : sortedByKey (kv :: rest) = true) : ∀ x ∈ rest, kv.key ≤ x.key := by
  induction rest generalizing kv with
  | nil => simp
  | cons b rest2 ih =>
    have h1 : leStr kv.key b.key = true := by
      cases hle : leStr kv.key b.key with
      | true => rfl
      | false => simp [sortedByKey, hle] at h
    have h2 : sortedByKey (b :: rest2) = true := sortedByKey_tail kv _ h
    intro x hx
    rcases List.mem_cons.mp hx with rfl | hmem
    · exact (leStr_iff _ _).mp h1
    · exact le_trans ((leStr_iff _ _).mp h1) (ih b h2 x hmem)

theorem readScan_eq_find (key : String) (l : List KeyValue)
    (hs : sortedByKey l = true) :
    readScan l key =
      (match l.find? (fun kv => kv.key == key) with
       | some kv => (kv.value, none)
       | none => ("", none)) := by
  induction l with
  | nil => rfl
  | cons kv rest ih =>
    by_cases hk : kv.key = key
    · have hbeq : (kv.key == key) = true := by simp [hk]
      simp [readScan, hk, List.find?_cons_of_pos _ hbeq]
    · have hfind : (kv :: rest).find? (fun kv => kv.key == key) =
          rest.find? (fun kv => kv.key == key) := by
        apply List.find?_cons_of_neg
        simp [hk]
      cases hlt : ltStr key kv.key with
      | true =>
        have hnone : rest.find? (fun kv => kv.key == key) = none := by
          rw [List.find?_eq_none]
          intro x hx
          have hge : kv.key ≤ x.key := sortedByKey_head_le kv rest hs x hx
          have hxk : key < x.key :=
            lt_of_lt_of_le ((ltStr_iff key kv.key).mp hlt) hge
          simp [ne_of_gt hxk]
        simp [readScan, hk, hlt, hfind, hnone]
      | false =>
        have htail := ih (sortedByKey_tail kv rest hs)
        simp [readScan, hk, hlt, hfind, htail]

theorem SeekTo_fresh (recs : List KeyValue) (seekable : Bool) :
    SeekTo (NewReader recs seekable) 0 = (NewReader recs seekable, none) := by
  cases seekable with
  | true => simp [SeekTo, NewReader]
  | false => simp [SeekTo, NewReader, totalLen_nonneg]

theorem ReadString_eq_find (recs : List KeyValue) (seekable : Bool)
    (key : String) (hs : sortedByKey recs = true) :
    ReadString (NewReader recs seekable) key =
      (match recs.find? (fun kv => kv.key == key) with
       | some kv => (kv.value, none)
       | none => ("", none)) := by
  have hidx : indexLookup (NewReader recs seekable) key =
      (NewReader recs seekable, (0, none)) := by
    simp [indexLookup, NewReader]
  unfold ReadString
  rw [hidx]
  dsimp only
  rw [SeekTo_fresh]
  dsimp only
  have hdata : (NewReader recs seekable).dataRecs = recs := rfl
  have hpos : (NewReader recs seekable).pos = 0 := rfl
  rw [hdata, hpos, recsFrom_zero]
  exact readScan_eq_find key recs hs

/-- C3: exact lookup via `Reader.ReadString` over a data stream in
ascending key order: a scanned record whose key equals the target yields
its value with a nil error; a record strictly greater than the target stops
the scan and yields the empty value with a nil error; end-of-stream before
a match likewise yields the empty value with a nil error — absence is a
successful outcome, not an error.  (Observable summary: the result is the
value of the first record whose key matches, paired with `none`, and
`("", none)` when no record matches.) -/
theorem ReadString_absence_semantics (recs : List KeyValue) (seekable : Bool)
    (key : String) (hs : sortedByKey recs = true) :
    ReadString (NewReader recs seekable) key =
      (match recs.find? (fun kv => kv.key == key) with
       | some kv => (kv.value, none)
       | none => ("", none)) :=
  ReadString_eq_find recs seekable key hs

/-- Witness for C3 at a concrete sorted table: a present key yields its
value, an absent key yields `("", none)`. -/
theorem ReadString_absence_semantics_witness :
    sortedByKey recsW = true ∧
    ReadString (NewReader recsW true) "zzz" = ("", none) ∧
    ReadString (NewReader recsW true) "aab" = ("bar", none) :=
  ⟨rfl, (ReadString_absence_semantics recsW true "zzz" rfl).trans rfl,
   (ReadString_absence_semantics recsW true "aab" rfl).trans rfl⟩

/-- C10: for a key absent from the table, `Reader.ReadProto` returns a nil
error with the supplied message reset to empty (it unmarshals the empty
value produced by the raw not-found path), which is exactly what it
returns for a present record whose stored value is the empty encoding —
the two cases are indistinguishable at `ReadProto`'s interface. -/
theorem ReadProto_absent_indistinguishable (recs : List KeyValue)
    (seekable : Bool) (keyA keyP pb pb2 : String)
    (hs : sortedByKey recs = true)
    (habs : recs.find? (fun kv => kv.key == keyA) = none)
    (hpres : recs.find? (fun kv => kv.key == keyP) = some ⟨keyP, ""⟩) :
    ReadProto (NewReader recs seekable) keyA pb = ("", none) ∧
    ReadProto (NewReader recs seekable) keyP pb2 = ("", none) := by
  have h1 := ReadString_eq_find recs seekable keyA hs
  rw [habs] at h1
  have h2 := ReadString_eq_find recs seekable keyP hs
  rw [hpres] at h2
  constructor
  · unfold ReadProto
    rw [h1]
  · unfold ReadProto
    rw [h2]

/-- Witness for C10 at a concrete table whose first record stores the
empty value. -/
theorem ReadProto_absent_indistinguishable_witness :
    recsE.find? (fun kv => kv.key == "zzz") = none ∧
    recsE.find? (fun kv => kv.key == "aaa") = some ⟨"aaa", ""⟩ ∧
    ReadProto (NewReader recsE true) "zzz" "old" = ("", none) ∧
    ReadProto (NewReader recsE true) "aaa" "old" = ("", none) :=
  ⟨rfl, rfl,
   (ReadProto_absent_indistinguishable recsE true "zzz" "aaa" "old" "old"
     rfl rfl rfl).1,
   (ReadProto_absent_indistinguishable recsE true "zzz" "aaa" "old" "old"
     rfl rfl rfl).2⟩

/-! The writer's order check and error paths. -/

theorem ltStr_empty (s : String) : ltStr s "" = false :=
  (ltStr_eq_false s "").mpr (not_lt.mp (not_lt_empty s))

theorem writeFinish_err (env : WEnv) (w : Writer) (rdata : KeyValue)
    (idx : List IndexRecord) : (writeFinish env w rdata idx).err = none := rfl

theorem writeIndexStep_err_ne_kov (env : WEnv) (w : Writer) (rdata : KeyValue) :
    (writeIndexStep env w rdata).err ≠ some .keyOrderViolation := by
  unfold writeIndexStep
  cases henv : env.idxWriteErr <;>
    (try dsimp only) <;> split_ifs <;> simp [writeFinish]

theorem writeIndexStep_err_none (env : WEnv) (w : Writer) (rdata : KeyValue)
    (h1 : env.idxWriteErr = none) (h2 : w.hasIdx = true → w.index_type ≤ 2) :
    (writeIndexStep env w rdata).err = none := by
  unfold writeIndexStep
  rw [h1]
  by_cases hidx : w.hasIdx = true ∧ w.index_type ≠ IndexType_NONE
  · rw [if_pos hidx]
    by_cases hp : w.index_type = IndexType_PREFIXLEN
    · rw [if_pos hp]
      (try dsimp only)
      split_ifs <;> simp [writeFinish]
    · rw [if_neg hp]
      by_cases he : w.index_type = IndexType_EVERY_N
      · rw [if_pos he]
        (try dsimp only)
        split_ifs <;> simp [writeFinish]
      · have h3 := h2 hidx.1
        have h4 := hidx.2
        exfalso
        unfold IndexType_PREFIXLEN at hp
        unfold IndexType_EVERY_N at he
        unfold IndexType_NONE at h4
        omega
  · rw [if_neg hidx]
    exact writeFinish_err _ _ _ _

/-- C2: `Writer.WriteString` returns the key-order-violation error iff the
new key is strictly less than the previously written key; on a violation
the call appends nothing to either stream and leaves the writer state
untouched.  An equal key is never rejected, a very first write (previous
key is the empty string) is never rejected, and with fault-free streams and
a valid index configuration a non-violating write returns no error. -/
theorem WriteString_order_check (env : WEnv) (w : Writer) (key value : String) :
    ((WriteString env w key value).err = some .keyOrderViolation ↔
      key < w.last_key) ∧
    (key < w.last_key →
      WriteString env w key value = ⟨w, [], [], some .keyOrderViolation⟩) ∧
    (w.last_key = "" →
      (WriteString env w key value).err ≠ some .keyOrderViolation) ∧
    (env.dataWriteErr = none → env.idxWriteErr = none →
      (w.hasIdx = true → w.index_type ≤ 2) → ¬ key < w.last_key →
      (WriteString env w key value).err = none) := by
  have hmain : ∀ (hlt : ltStr key w.last_key = false),
      (WriteString env w key value).err ≠ some .keyOrderViolation := by
    intro hlt
    unfold WriteString
    rw [hlt]
    simp only [Bool.false_eq_true, if_false]
    cases hde : env.dataWriteErr with
    | some n => simp
    | none => exact writeIndexStep_err_ne_kov env _ _
  refine ⟨⟨?_, ?_⟩, ?_, ?_, ?_⟩
  · intro h
    by_contra hn
    exact hmain ((ltStr_eq_false _ _).mpr (not_lt.mp hn)) h
  · intro h
    have hlt : ltStr key w.last_key = true := (ltStr_iff _ _).mpr h
    simp [WriteString, hlt]
  · intro h
    have hlt : ltStr key w.last_key = true := (ltStr_iff _ _).mpr h
    simp [WriteString, hlt]
  · intro h0
    apply hmain
    rw [h0]
    exact ltStr_empty key
  · intro hd hi hv hn
    have hlt : ltStr key w.last_key = false :=
      (ltStr_eq_false _ _).mpr (not_lt.mp hn)
    unfold WriteString
    rw [hlt]
    simp only [Bool.false_eq_true, if_false]
    rw [hd]
    exact writeIndexStep_err_none env _ _ hi hv

/-- Witness for C2: a fresh writer accepts the first write; a writer whose
last key is `"b"` rejects `"a"` with the order-violation error and is left
unchanged. -/
theorem WriteString_order_check_witness :
    (WriteString ⟨none, none, none⟩ (NewWriter false none) "a" "x").err =
      none ∧
    WriteString ⟨none, none, none⟩
        { (NewWriter false none) with last_key := "b" } "a" "x" =
      ⟨{ (NewWriter false none) with last_key := "b" }, [], [],
        some .keyOrderViolation⟩ :=
  ⟨(WriteString_order_check ⟨none, none, none⟩ (NewWriter false none)
      "a" "x").2.2.2 rfl rfl (fun h => by simp [NewWriter] at h)
      (not_lt_empty "a"),
   (WriteString_order_check ⟨none, none, none⟩
      { (NewWriter false none) with last_key := "b" } "a" "x").2.1
      ((ltStr_iff "a" "b").mp rfl)⟩

/-- C4 (code bug): `WriteProtoMap` does not sort the map's keys before
writing — it iterates the map in raw iteration order, so a bulk load from
an unordered map can fail with the key-order-violation error, while
`WriteStringMap` on the same map sorts and succeeds. -/
theorem WriteProtoMap_does_not_sort :
    (WriteProtoMap (NewWriter false none) [("b", "y"), ("a", "x")]).2 =
      some .keyOrderViolation ∧
    (WriteStringMap (NewWriter false none) [("b", "y"), ("a", "x")]).2 =
      none :=
  ⟨rfl, rfl⟩

/-- C5 (code bug): after a successful write on a data stream with no seek
support, the write-offset cursor is not advanced at all — the
advance-by-serialized-length branch is unreachable when `out_seek` is nil,
so the cursor stays at 0 even though the record serialized to 4 bytes. -/
theorem WriteString_noSeek_cursor_unchanged :
    (WriteString ⟨none, none, none⟩ (NewWriter false none) "a" "x").err =
      none ∧
    ((WriteString ⟨none, none, none⟩ (NewWriter false none) "a" "x").w).index_offset = 0 ∧
    (NewWriter false none).index_offset = 0 ∧
    encLen ⟨"a", "x"⟩ = 4 :=
  ⟨rfl, rfl, rfl, rfl⟩

/-- C6 (counterexample): when the data write fails inside
`Writer.WriteString`, the writer state is rolled over unchanged — the
last-key is *not* updated (it stays `"a"` instead of becoming `"b"`) and
the cursor is not advanced, contrary to the claim. -/
theorem WriteString_dataErr_counterexample :
    WriteString ⟨some 3, none, none⟩
        { (NewWriter false none) with last_key := "a" } "b" "y" =
      ⟨{ (NewWriter false none) with last_key := "a" }, [], [],
        some (.ioError 3)⟩ ∧
    ({ (NewWriter false none) with last_key := "a" } : Writer).last_key =
      "a" ∧
    ("a" : String) ≠ "b" :=
  ⟨rfl, rfl, by decide⟩

/-- C6 (amended): when the underlying data write fails inside
`Writer.WriteString`, the stream's error is returned unmodified and the
writer state is left entirely unchanged — the last-key is not updated and
the write cursor is not advanced (the stream itself may still hold partial
bytes, so callers should treat the failure as fatal to the table). -/
theorem WriteString_dataErr_state_unchanged (env : WEnv) (w : Writer)
    (key value : String) (n : Nat) (h1 : env.dataWriteErr = some n)
    (h2 : ¬ key < w.last_key) :
    WriteString env w key value = ⟨w, [], [], some (.ioError n)⟩ := by
  have hlt : ltStr key w.last_key = false :=
    (ltStr_eq_false _ _).mpr (not_lt.mp h2)
  unfold WriteString
  rw [hlt, h1]
  simp

/-- Witness for C6 at a fresh seekable writer whose data write fails. -/
theorem WriteString_dataErr_state_unchanged_witness :
    WriteString ⟨some 7, none, none⟩ (NewWriter true (some 0)) "a" "x" =
      ⟨NewWriter true (some 0), [], [], some (.ioError 7)⟩ :=
  WriteString_dataErr_state_unchanged ⟨some 7, none, none⟩
    (NewWriter true (some 0)) "a" "x" 7 rfl (not_lt_empty "a")

/-- C9 (counterexample): writing `[("aaa","foo"),("aab","bar"),
("mmm","baz")]` through an `EVERY_N(2)` writer over a seekable stream emits
no entry on the 1st write and one entry on the 2nd, but that entry's offset
is 8 — the byte at which `"aab"`'s record starts — and not 0, the offset of
`"aaa"`'s record. -/
theorem everyN_offset_counterexample :
    (sysWrite sysW0 "aaa" "foo").2 = none ∧
    (sysWrite sysW1 "aab" "bar").2 = none ∧
    sysW1.idxRecs = [] ∧
    sysW2.idxRecs = [⟨"aab", 8⟩] ∧
    sysW3.dataRecs = [⟨"aaa", "foo"⟩, ⟨"aab", "bar"⟩, ⟨"mmm", "baz"⟩] ∧
    startOffset sysW3.dataRecs 0 = 0 ∧
    ((8 : Int) ≠ 0) :=
  ⟨rfl, rfl, rfl, rfl, rfl, rfl, by decide⟩

/-- C9 (amended): writing `[("aaa","foo"),("aab","bar"),("mmm","baz")]`
with `EVERY_N(2)` emits no index entry for the 1st write and one entry
triggered by the 2nd write (cyclic counter wraps to zero), carrying the
triggering record's key `"aab"` and the offset at which `"aab"`'s record
starts; the exact lookup for `"mmm"` on the resulting table succeeds and
returns `"baz"`. -/
theorem everyN_scenario :
    (sysWrite sysW0 "aaa" "foo").2 = none ∧
    (sysWrite sysW1 "aab" "bar").2 = none ∧
    (sysWrite sysW2 "mmm" "baz").2 = none ∧
    sysW1.idxRecs = [] ∧
    sysW3.idxRecs = [⟨"aab", startOffset sysW3.dataRecs 1⟩] ∧
    startOffset sysW3.dataRecs 1 = 8 ∧
    ReadString (tableReader sysW3) "mmm" = ("baz", none) :=
  ⟨rfl, rfl, rfl, rfl, rfl, rfl, rfl⟩

end SSTable
